import Mathlib

/-!
Shallow embedding, in Lean 4, of the WebNest repository (a Node.js CLI that
turns a URL into a platform-native launcher artifact).  The embedded
functions mirror the JavaScript source files `src/index.js` (CLI +
installer), `src/browser.js` (browser tables + URL utilities) and the icon
pipeline module (`getBestIconUrl`, `downloadIcon`, `convertToIco`,
`convertToIcns`, `prepareIcon`).  Effectful operations (network, file
system, child processes) are modelled by explicit environment records whose
fields give the outcome of each primitive; file writes are accumulated in
an explicit list.  JavaScript promise rejections / thrown exceptions are
modelled with `Except`.
-/

namespace WebNest

/-! ### Generic string helpers (models of the JS string primitives used) -/

/-- Model of list-prefix testing, used to build the substring test below. -/
def listStarts [BEq α] : List α → List α → Bool
| [], _ => true
| _ :: _, [] => false
| a :: as, b :: bs => a == b && listStarts as bs

/-- Model of JS `String.prototype.includes` at the level of char lists. -/
def listHas [BEq α] (pat : List α) : List α → Bool
| [] => pat.isEmpty
| l@(_ :: bs) => listStarts pat l || listHas pat bs

/-- Model of JS `s.includes(pat)`. -/
def strHas (s pat : String) : Bool := listHas pat.toList s.toList

/-- Model of JS `s.startsWith(pat)` (kernel-reducible replacement for
`String.startsWith`). -/
def strStarts (s pat : String) : Bool := listStarts pat.toList s.toList

/-- Model of JS `s.endsWith(pat)`. -/
def strEnds (s pat : String) : Bool := listStarts pat.toList.reverse s.toList.reverse

/-- Model of JS `s.toLowerCase()` (ASCII, matching the data the source
feeds it). -/
def strLower (s : String) : String := String.mk (s.toList.map Char.toLower)

/-- Model of JS `s.trim()`. -/
def strTrim (s : String) : String :=
  String.mk (((s.toList.dropWhile Char.isWhitespace).reverse.dropWhile Char.isWhitespace).reverse)

/-- Model of JS `s.substring(0, n)`. -/
def strTake (s : String) (n : Nat) : String := String.mk (s.toList.take n)

/-- Model of JS `s.slice(n)`. -/
def strDrop (s : String) (n : Nat) : String := String.mk (s.toList.drop n)

/-- Replacement of the first occurrence of `pat` by `repl` in a char list;
models JS `String.prototype.replace` with a plain string pattern (which
replaces only the first occurrence). -/
def replFirstL [BEq α] (pat repl : List α) : List α → List α
| [] => []
| a :: as =>
  if listStarts pat (a :: as) then repl ++ (a :: as).drop pat.length
  else a :: replFirstL pat repl as

/-- Model of JS `s.replace(pat, repl)` (first occurrence only). -/
def jsReplaceFirst (s pat repl : String) : String :=
  String.mk (replFirstL pat.toList repl.toList s.toList)

/-- Replacement of every occurrence of the character `a` by `b`; models JS
`s.replace(/a/g, 'b')` for a single-character pattern. -/
def replaceAllChar (s : String) (a b : Char) : String :=
  String.mk (s.toList.map (fun c => if c == a then b else c))

/-- Model of Node `path.join` restricted to two components (the only form
the source uses); the separator is normalised to `/`. -/
def pathJoin (a b : String) : String :=
  if strStarts b "/" then a ++ b else a ++ "/" ++ b

/-! ### URL model

The source relies on the WHATWG `new URL(...)` constructor.  `parseURL`
below is an executable approximation of the constructor for the fields the
repository reads (`protocol`, `hostname`, `pathname`): a syntactically
valid scheme followed by `:`, then, for the special schemes, an authority
whose host must be non-empty.  Strings with no `:` or an invalid scheme
fail to parse, exactly as `new URL` throws on them. -/

structure UrlRec where
  protocol : String
  hostname : String
  pathname : String
deriving Repr, DecidableEq

/-- Drops everything up to and including the last `'@'` (userinfo). -/
def afterLastAt (l : List Char) : List Char :=
  (l.reverse.takeWhile (fun c => !(c == '@'))).reverse

/-- Validity of a URL scheme: one ASCII letter then letters, digits,
`+`, `-`, `.`. -/
def schemeOkL : List Char → Bool
| [] => false
| c :: cs => c.isAlpha && cs.all (fun d => d.isAlpha || d.isDigit || d == '+' || d == '-' || d == '.')

/-- Schemes the WHATWG parser treats as special (authority-bearing). -/
def specialSchemes : List String := ["http", "https", "ws", "wss", "ftp", "file"]

/-- Executable model of `new URL(s)`: `none` models a thrown `TypeError`. -/
def parseURL (s : String) : Option UrlRec :=
  let cs := s.toList
  let schemeL := cs.takeWhile (fun c => !(c == ':'))
  if !(decide (schemeL.length < cs.length)) then none
  else if !(schemeOkL schemeL) then none
  else
    let scheme := strLower (String.mk schemeL)
    let rest := cs.drop (schemeL.length + 1)
    if specialSchemes.contains scheme then
      let afterSlashes := rest.dropWhile (fun c => c == '/' || c == '\\')
      let authority := afterSlashes.takeWhile
        (fun c => !(c == '/') && !(c == '?') && !(c == '#') && !(c == '\\'))
      let hostPort := afterLastAt authority
      let host := hostPort.takeWhile (fun c => !(c == ':'))
      if host.isEmpty then none
      else
        let tail0 := afterSlashes.drop authority.length
        let pathL := tail0.takeWhile (fun c => !(c == '?') && !(c == '#'))
        let pathname := if pathL.isEmpty then "/" else String.mk pathL
        some { protocol := scheme ++ ":", hostname := strLower (String.mk host),
               pathname := pathname }
    else
      let pathL := rest.takeWhile (fun c => !(c == '?') && !(c == '#'))
      some { protocol := scheme ++ ":", hostname := "", pathname := String.mk pathL }

/-! ### `src/browser.js` second half: `validateUrl`, `sanitizeAppName`,
`generateAppId` -/

/-- Embeds `validateUrl` (browser.js lines 292-299): parse the string,
return whether the protocol is exactly `http:` or `https:`; a parse
failure yields `false`. -/
def validateUrl (urlString : String) : Bool :=
  match parseURL urlString with
  | some u => u.protocol == "http:" || u.protocol == "https:"
  | none => false

/-- Characters removed by `sanitizeAppName` (the regex `[<>:"/\\|?*]`). -/
def illegalChars : List Char := ['<', '>', ':', '"', '/', '\\', '|', '?', '*']

/-- Collapses every maximal whitespace run to a single space; models the JS
`replace(/\s+/g, ' ')`.  The boolean flag records whether the previous
character was whitespace. -/
def collapseWsGo : Bool → List Char → List Char
| _, [] => []
| prevWs, c :: cs =>
  if c.isWhitespace then
    (if prevWs then [] else [' ']) ++ collapseWsGo true cs
  else c :: collapseWsGo false cs

/-- Embeds `sanitizeAppName` (browser.js lines 304-310): strip
filesystem-illegal characters, collapse whitespace, trim, truncate to 50
characters. -/
def sanitizeAppName (s : String) : String :=
strTake (strTrim (String.mk (collapseWsGo false
    (s.toList.filter (fun c => !(illegalChars.contains c)))))) 50

/-- Embeds `generateAppId` (browser.js lines 315-328).  `Date.now()` in the
fallback branch is modelled by the explicit `now` argument. -/
def generateAppId (urlString : String) (now : Nat) : String :=
  match parseURL urlString with
  | none => "com.webnest.app-" ++ toString now
  | some u =>
    let hostname := replaceAllChar u.hostname '.' '-'
    let pathPart := String.mk
      ((((replaceAllChar u.pathname '/' '-').toList).filter
        (fun c => c.isAlpha || c.isDigit || c == '-')).take 20)
    strLower ("com.webnest." ++ hostname ++ pathPart)

/-! ### Icon discovery (icon module: `parseIconLinks`, `parseManifest`,
`getBestIconUrl`)

HTML is modelled post-regex: a `LinkTag` is one `<link ...>` match with the
attribute values the per-tag regexes would capture (`rel`, `href`, `sizes`,
`type`), `none` meaning the attribute is absent.  The host's URL-resolution
primitive `new URL(href, base).href` is modelled by the environment field
`resolveUrl`. -/

structure LinkTag where
  rel : Option String := none
  href : Option String := none
  sizes : Option String := none
  typ : Option String := none
deriving Repr

structure Icon where
  href : String
  size : Int
  typ : String := ""
  isAppleIcon : Bool := false
  priority : Int
deriving Repr, DecidableEq

/-- Entry of a web-app manifest's `icons` array as `JSON.parse` delivers
it (`src`, optional `sizes`, optional `type`). -/
structure MEntry where
  src : String
  sizes : Option String := none
  typ : Option String := none
deriving Repr

/-- Model of JS `parseInt(s, 10)`: skip leading whitespace, optional sign,
then a non-empty run of decimal digits; `none` models `NaN`. -/
def jsParseInt (s : String) : Option Int :=
  let cs := s.toList.dropWhile Char.isWhitespace
  let (neg, cs') : Bool × List Char :=
    match cs with
    | '-' :: rest => (true, rest)
    | '+' :: rest => (false, rest)
    | _ => (false, cs)
  let digits := cs'.takeWhile Char.isDigit
  if digits.isEmpty then none
  else
    let n : Nat := digits.foldl (fun acc c => acc * 10 + (c.toNat - '0'.toNat)) 0
    some (if neg then -(n : Int) else (n : Int))

/-- Size parsed from a `sizes` attribute: the leading token before the
first `x`, through `parseInt(..., 10) || 0` (so `NaN` and `0` both give
`0`). -/
def parseSizeTok (sizes : String) : Int :=
  (jsParseInt (String.mk (sizes.toList.takeWhile (fun c => !(c == 'x'))))).getD 0

/-- Environment for the discovery functions: outcome of the page fetch
(already reduced to the extracted `<link>` tags), outcome of the manifest
fetch + `JSON.parse` (`.error` = fetch or parse threw, `.ok none` = no
`icons` array, `.ok (some l)` = the entries), and the URL resolver. -/
structure DiscEnv where
  pageFetch : Except String (List LinkTag)
  manifestFetch : Except String (Option (List MEntry)) := .error "no manifest"
  resolveUrl : String → String → String := fun l _ => l

/-- Embeds `parseIconLinks` (icon module lines 75-136): keep the link tags
whose lowercased `rel` contains "icon", resolve the href against the page
URL, parse the size hint, and assign `priority = size + 1000` exactly when
the `rel` contains "apple-touch-icon"; separately report the first
`rel="manifest"` link's resolved href. -/
def parseIconLinks (resolveUrl : String → String → String)
    (links : List LinkTag) (baseUrl : String) : List Icon × Option String :=
  let icons := links.filterMap (fun t =>
    match t.rel with
    | none => none
    | some rel0 =>
      let rel := strLower rel0
      if !(strHas rel "icon") then none
      else match t.href with
        | none => none
        | some h =>
          let href := if strStarts h "http" then h else resolveUrl h baseUrl
          let size : Int := match t.sizes with
            | some ss => parseSizeTok ss
            | none => 0
          let isApple := strHas rel "apple-touch-icon"
          some { href := href, size := size, typ := t.typ.getD "",
                 isAppleIcon := isApple,
                 priority := if isApple then size + 1000 else size })
  let manifestUrl :=
    match links.find? (fun t =>
        (t.rel.map strLower) == some "manifest" && t.href.isSome) with
    | some t => t.href.map (fun h =>
        if strStarts h "http" then h else resolveUrl h baseUrl)
    | none => none
  (icons, manifestUrl)

/-- Embeds `parseManifest` (icon module lines 141-176): on any fetch/parse
failure or missing `icons` array return `[]`, otherwise map each entry to
an icon candidate with `priority = size` (no apple bonus), hrefs resolved
against the manifest URL. -/
def parseManifest (env : DiscEnv) (manifestUrl : String) : List Icon :=
  match env.manifestFetch with
  | .error _ => []
  | .ok none => []
  | .ok (some entries) => entries.map (fun e =>
      let href := if strStarts e.src "http" then e.src
                  else env.resolveUrl e.src manifestUrl
      let size : Int := match e.sizes with
        | some ss => parseSizeTok ss
        | none => 0
      { href := href, size := size, typ := e.typ.getD "",
        isAppleIcon := false, priority := size })

/-- Stable insertion into a descending-by-priority list: the element is
placed after every element of strictly greater priority and before the
first element of equal or smaller priority. -/
def insertIcon (a : Icon) : List Icon → List Icon
| [] => [a]
| x :: xs => if a.priority < x.priority then x :: insertIcon a xs else a :: x :: xs

/-- Model of `allIcons.sort((a, b) => b.priority - a.priority)`: a stable
descending sort (V8's `Array.prototype.sort` is stable). -/
def sortIcons (l : List Icon) : List Icon := l.foldr insertIcon []

/-- First element of maximal priority in encounter order (the reference
value the sorted head is proved to equal). -/
def firstMaxIcon : List Icon → Option Icon
| [] => none
| a :: l =>
  match firstMaxIcon l with
  | none => some a
  | some b => if b.priority > a.priority then some b else some a

/-- Combined candidate list `[...htmlIcons, ...manifestIcons]` exactly as
`getBestIconUrl` builds it. -/
def allIcons (env : DiscEnv) (links : List LinkTag) (websiteUrl : String) : List Icon :=
  let parsed := parseIconLinks env.resolveUrl links websiteUrl
  parsed.1 ++ (match parsed.2 with
    | some mu => parseManifest env mu
    | none => [])

/-- Deterministic fallback `${url.protocol}//${url.hostname}/favicon.ico`;
the `new URL(websiteUrl)` in the source's catch handler throws when the
page URL itself is malformed, modelled by the `.error` branch. -/
def faviconFallback (websiteUrl : String) : Except String String :=
  match parseURL websiteUrl with
  | some u => .ok (u.protocol ++ "//" ++ u.hostname ++ "/favicon.ico")
  | none => .error "Invalid URL"

/-- Embeds `getBestIconUrl` (icon module lines 181-215): on page-fetch
failure fall through to the favicon fallback; otherwise combine HTML and
manifest candidates, stable-sort descending by priority, and return the
head's href, falling back to favicon.ico when no candidate exists. -/
def getBestIconUrl (env : DiscEnv) (websiteUrl : String) : Except String String :=
  match env.pageFetch with
  | .error _ => faviconFallback websiteUrl
  | .ok links =>
    match (sortIcons (allIcons env links websiteUrl)).head? with
    | some i => .ok i.href
    | none => faviconFallback websiteUrl

/-! ### Icon download and transcoding (`downloadIcon`, `convertToIco`,
`convertToIcns`, `prepareIcon`) -/

/-- Embeds the extension-inference chain of `downloadIcon` (icon module
lines 225-234). -/
def inferExtension (contentType iconUrl : String) : String :=
  if strHas contentType "svg" then ".svg"
  else if strHas contentType "ico" || strEnds iconUrl ".ico" then ".ico"
  else if strHas contentType "jpeg" || strHas contentType "jpg" then ".jpg"
  else if strEnds iconUrl ".svg" then ".svg"
  else ".png"

/-- Environment for the download/transcoding layer.  `fetch` is the asset
fetch (byte length and content-type on success); the booleans give the
outcome of each file-system / child-process primitive (`false` = the
primitive throws or the external tool is unavailable). -/
structure PrepEnv where
  disc : DiscEnv
  fetch : Except String (Nat × String)
  mkdirOk : Bool := true
  writeOk : Bool := true
  toolOk : Bool := true
  copyOk : Bool := true
  icnsOk : Bool := true
  svgOk : Bool := true
  rmOk : Bool := true

structure DlResult where
  success : Bool
  path : String := ""
  extension : String := ""
  size : Nat := 0
  error : String := ""
deriving Repr, DecidableEq

/-- Embeds `downloadIcon` (icon module lines 220-252).  The second
component records whether the temp directory was created (the `mkdirAsync`
call runs only after a successful fetch, and a later write failure is
caught after the directory already exists). -/
def downloadIcon (iconUrl tempDir : String) (env : PrepEnv) : DlResult × Bool :=
  match env.fetch with
  | .error e => ({ success := false, error := e }, false)
  | .ok (len, contentType) =>
    let ext := inferExtension contentType iconUrl
    if env.mkdirOk then
      let iconPath := pathJoin tempDir ("icon" ++ ext)
      if env.writeOk then
        ({ success := true, path := iconPath, extension := ext, size := len }, true)
      else ({ success := false, error := "write failed" }, true)
    else ({ success := false, error := "mkdir failed" }, false)

structure ConvResult where
  success : Bool
  path : String := ""
  note : Option String := none
  error : String := ""
deriving Repr, DecidableEq

/-- Embeds `convertToIco` (icon module lines 303-323): with ImageMagick
available convert to `.ico`; otherwise copy the source next to the target
as a plain PNG and report success with a note; only a failing copy yields
`success := false`.  Every branch returns (the inner catch swallows the
copy failure), so the function never rejects. -/
def convertToIco (inputPath outputPath : String) (env : PrepEnv) : ConvResult :=
  if env.toolOk then { success := true, path := outputPath }
  else if env.copyOk then
    { success := true, path := jsReplaceFirst outputPath ".ico" ".png",
      note := some "Saved as PNG (ImageMagick not available for ICO conversion)" }
  else { success := false, error := "copy failed" }

/-- Embeds `convertToIcns` (icon module lines 257-297) at the outcome
level: the sips/iconutil pipeline either produces the `.icns` or fails;
its private `icon.iconset` staging directory is cleaned on both branches
inside the function itself. -/
def convertToIcns (inputPath outputPath : String) (env : PrepEnv) : ConvResult :=
  if env.icnsOk then { success := true, path := outputPath }
  else { success := false, error := "icns conversion failed" }

/-- Platform switch of `prepareIcon` (icon module lines 342-393).  An
`.error` models an exception escaping the switch: the Linux
`fs.copyFileSync` calls sit outside any `try`, so a copy failure
propagates; the macOS SVG pre-rasterisation failure is swallowed. -/
def prepareIconStep (env : PrepEnv) (downloaded : DlResult)
    (tempDir outputDir platform : String) : Except String ConvResult :=
  match platform with
  | "darwin" =>
    let icnsPath := pathJoin outputDir "AppIcon.icns"
    let srcPath := if downloaded.extension == ".svg" && env.svgOk then
        pathJoin tempDir "icon.png" else downloaded.path
    .ok (convertToIcns srcPath icnsPath env)
  | "win32" =>
    .ok (convertToIco downloaded.path (pathJoin outputDir "app.ico") env)
  | "linux" =>
    let pngPath := pathJoin outputDir "icon.png"
    if downloaded.extension == ".png" then
      if env.copyOk then .ok { success := true, path := pngPath }
      else .error "copyFileSync failed"
    else if env.toolOk then .ok { success := true, path := pngPath }
    else if env.copyOk then .ok { success := true, path := pngPath }
    else .error "copyFileSync failed"
  | other => .ok { success := false, error := "Unsupported platform: " ++ other }

/-- Embeds `prepareIcon` (icon module lines 328-401).  The result pairs
the promise outcome (`.error` = the promise rejected) with a boolean
telling whether the `.icon-temp` directory still exists when the function
returns.  Note the source's early `return` on download failure happens
before the `rm -rf` cleanup. -/
def prepareIcon (env : PrepEnv) (websiteUrl outputDir platform : String) :
    Except String ConvResult × Bool :=
  match getBestIconUrl env.disc websiteUrl with
  | .error e => (.error e, false)
  | .ok iconUrl =>
    let tempDir := pathJoin outputDir ".icon-temp"
    let (downloaded, created) := downloadIcon iconUrl tempDir env
    if !downloaded.success then
      (.ok { success := false,
             error := "Failed to download icon: " ++ downloaded.error }, created)
    else
      match prepareIconStep env downloaded tempDir outputDir platform with
      | .error e => (.error e, created)
      | .ok result => (.ok result, if env.rmOk then false else created)

/-! ### Installer (`src/index.js` second half): app directories,
`createMacOSApp` / `createWindowsApp` / `createLinuxApp`, `installWebApp` -/

/-- Embeds `expandHomePath` (browser.js lines 175-180); `process.env.HOME`
is the explicit `home` argument. -/
def expandHomePath (home filepath : String) : String :=
  if strStarts filepath "~" then pathJoin home (strDrop filepath 1) else filepath

/-- Per-browser macOS apps directory (the `darwin` table of
`getWebAppDirectory`); an unknown browser id falls back to the chrome
entry (`platformDirs[browserId] || platformDirs.chrome`). -/
def darwinAppsDir (browserId : String) : String :=
  match browserId with
  | "edge" => "~/Applications/Edge Apps.localized"
  | "brave" => "~/Applications/Brave Apps.localized"
  | "chromium" => "~/Applications/Chromium Apps.localized"
  | "comet" => "~/Applications/Comet Apps.localized"
  | "atlas" => "~/Applications/Atlas Apps.localized"
  | _ => "~/Applications/Chrome Apps.localized"

/-- Per-browser Windows Start-Menu directory (the `win32` table);
`process.env.APPDATA` is the explicit `appdata` argument. -/
def win32AppsDir (appdata browserId : String) : String :=
  let base := appdata ++ "\\Microsoft\\Windows\\Start Menu\\Programs\\"
  match browserId with
  | "edge" => base ++ "Edge Apps"
  | "brave" => base ++ "Brave Apps"
  | "chromium" => base ++ "Chromium Apps"
  | "comet" => base ++ "Comet Apps"
  | "atlas" => base ++ "Atlas Apps"
  | _ => base ++ "Chrome Apps"

/-- Embeds `getWebAppDirectory` (index.js installer lines 239-280); the
`linux` table maps every browser to the same applications directory, and
an unsupported platform throws. -/
def getWebAppDirectory (platform home appdata browserId : String) :
    Except String String :=
  match platform with
  | "darwin" => .ok (expandHomePath home (darwinAppsDir browserId))
  | "win32" => .ok (win32AppsDir appdata browserId)
  | "linux" => .ok (expandHomePath home "~/.local/share/applications")
  | _ => .error ("Unsupported platform: " ++ platform)

/-- Embeds `getWebAppDirectoryById` (same tables, but `null` instead of a
throw on an unsupported platform). -/
def getWebAppDirectoryById (platform home appdata browserId : String) :
    Option String :=
  match platform with
  | "darwin" => some (expandHomePath home (darwinAppsDir browserId))
  | "win32" => some (win32AppsDir appdata browserId)
  | "linux" => some (expandHomePath home "~/.local/share/applications")
  | _ => none

/-- Embeds `getBrowserName` (index.js installer lines 564-574). -/
def getBrowserName (browserId : String) : String :=
  match browserId with
  | "chrome" => "Google Chrome"
  | "edge" => "Microsoft Edge"
  | "brave" => "Brave Browser"
  | "chromium" => "Chromium"
  | "comet" => "Comet Browser"
  | "atlas" => "Atlas Browser"
  | other => other

/-- Browser descriptor handed to the installer by `detectBrowser`. -/
structure BrowserInfo where
  id : String
  name : String
  path : String
deriving Repr

/-- Environment for one install invocation.  `iconResult` is the outcome
of the `prepareIcon` call (`.error` = the promise rejected); `psOk` is the
outcome of the PowerShell shortcut creation on Windows.  The remaining
file-system primitives used by the emitters (mkdir, writeFile, chmod,
rename) are modelled as succeeding — the claims below only quantify over
icon-pipeline failures. -/
structure InstallEnv where
  platform : String
  home : String := "/home/user"
  appdata : String := "C:\\Users\\user\\AppData\\Roaming"
  temp : String := "C:\\Temp"
  now : Nat := 0
  iconResult : Except String ConvResult
  psOk : Bool := true

structure InstallResult where
  success : Bool
  appPath : String := ""
  note : String := ""
  error : String := ""
deriving Repr, DecidableEq

/-- Icon note shared by the three emitters: both a rejected `prepareIcon`
promise and a `{success:false}` result degrade to the user-visible
note. -/
def iconNoteOf (iconResult : Except String ConvResult) : String :=
  match iconResult with
  | .error _ => "Could not fetch icon from website. "
  | .ok r => if r.success then "" else "Could not fetch icon from website. "

/-- Embeds `createMacOSApp` (index.js installer lines 285-367).  The
returned list holds the paths passed to `writeFileAsync` (`Info.plist` and
the launcher script); the `lsregister` call is fire-and-forget. -/
def createMacOSApp (env : InstallEnv) (url appName : String)
    (browser : BrowserInfo) (appDir : String) :
    Except String (InstallResult × List String) :=
  let safeName := sanitizeAppName appName
  let appPath := pathJoin appDir (safeName ++ ".app")
  let contentsPath := pathJoin appPath "Contents"
  let macOSPath := pathJoin contentsPath "MacOS"
  let iconNote := iconNoteOf env.iconResult
  let written := [pathJoin contentsPath "Info.plist", pathJoin macOSPath safeName]
  .ok ({ success := true, appPath := appPath,
         note := iconNote ++ "The app should appear in Spotlight search. If not, try restarting Spotlight (killall mds)." },
       written)

/-- Embeds `createWindowsApp` (index.js installer lines 372-424).  The
PowerShell script is written to a temp file and executed once; a failing
execution makes the whole function throw, a successful one creates the
`.lnk` shortcut (recorded in the written list alongside the temp
script). -/
def createWindowsApp (env : InstallEnv) (url appName : String)
    (browser : BrowserInfo) (appDir : String) :
    Except String (InstallResult × List String) :=
  let safeName := sanitizeAppName appName
  let shortcutPath := pathJoin appDir (safeName ++ ".lnk")
  let iconNote := iconNoteOf env.iconResult
  let tempScript := pathJoin env.temp ("webnest_" ++ toString env.now ++ ".ps1")
  if env.psOk then
    .ok ({ success := true, appPath := shortcutPath,
           note := iconNote ++ "The app should appear in the Start Menu search." },
         [tempScript, shortcutPath])
  else .error "Failed to create shortcut: powershell failed"

/-- Embeds `createLinuxApp` (index.js installer lines 429-486): the
`.desktop` file is named by the deterministic app id, the icon degrades to
the stock `web-browser` name on failure, and the desktop-database refresh
is fire-and-forget. -/
def createLinuxApp (env : InstallEnv) (url appName : String)
    (browser : BrowserInfo) (appDir : String) :
    Except String (InstallResult × List String) :=
  let appId := generateAppId url env.now
  let desktopFilePath := pathJoin appDir (appId ++ ".desktop")
  let iconDir := expandHomePath env.home "~/.local/share/icons/webnest"
  let iconNote := iconNoteOf env.iconResult
  let written := [desktopFilePath]
  .ok ({ success := true, appPath := desktopFilePath,
         note := iconNote ++ "The app should appear in your application menu. You may need to log out and log back in for it to appear." },
       written)

/-- Embeds `installWebApp` (index.js installer lines 491-519): resolve the
per-browser app directory (throws on an unsupported platform), ensure it
exists, then dispatch on the platform. -/
def installWebApp (env : InstallEnv) (url appName : String)
    (browser : BrowserInfo) : Except String (InstallResult × List String) :=
  match getWebAppDirectory env.platform env.home env.appdata browser.id with
  | .error e => .error e
  | .ok appDir =>
    match env.platform with
    | "darwin" => createMacOSApp env url appName browser appDir
    | "win32" => createWindowsApp env url appName browser appDir
    | "linux" => createLinuxApp env url appName browser appDir
    | p => .ok ({ success := false, error := "Unsupported platform: " ++ p }, [])

/-! ### Uninstaller (`uninstallWebApp`, index.js installer lines
579-711) -/

/-- Environment for one uninstall invocation: existence of the app
directory, per-path `statAsync` outcome, the directory listing (a
`readdirAsync` rejection propagates out of the function), per-path file
reads, and the outcome of `fs.rm`. -/
structure UninstEnv where
  platform : String
  home : String := "/home/user"
  appdata : String := "C:\\Users\\user\\AppData\\Roaming"
  statDir : Bool := true
  statFile : String → Bool := fun _ => false
  listing : Except String (List String) := .ok []
  readFile : String → Except String String := fun _ => .error "unreadable"
  rmOk : Bool := true

structure UninstallResult where
  success : Bool
  notFound : Bool := false
  appPath : String := ""
  browserName : String := ""
  error : String := ""
deriving Repr, DecidableEq

/-- Search step of the `darwin`/`win32` branches: stat the exact path,
then fall back to a case-insensitive scan of the listing. -/
def findByExt (env : UninstEnv) (appDir safeName ext : String) :
    Except String (Option String) :=
  let appPath0 := pathJoin appDir (safeName ++ ext)
  if env.statFile appPath0 then .ok (some appPath0)
  else
    match env.listing with
    | .error e => .error e
    | .ok files =>
      match files.find? (fun f => strLower f == strLower safeName ++ ext) with
      | some m => .ok (some (pathJoin appDir m))
      | none => .ok none

/-- Search step of the `linux` branch: first `.desktop` file whose base
name mentions the sanitized name or whose file name mentions "webnest",
confirmed by the file content mentioning the sanitized name or
"WebNest". -/
def findLinuxDesktop (env : UninstEnv) (appDir safeName : String) :
    Except String (Option String) :=
  match env.listing with
  | .error e => .error e
  | .ok files =>
    match files.find? (fun f =>
        strEnds f ".desktop" &&
        (strHas (strLower (jsReplaceFirst f ".desktop" "")) (strLower safeName) ||
         strHas (strLower f) "webnest")) with
    | none => .ok none
    | some f =>
      let appPath := pathJoin appDir f
      match env.readFile appPath with
      | .error _ => .ok none
      | .ok content =>
        if strHas content safeName || strHas content "WebNest" then
          .ok (some appPath)
        else .ok none

/-- Embeds `uninstallWebApp`: soft `notFound` results for a missing app
directory or a missing artifact, a propagated rejection when the directory
listing itself fails, and a caught `{success:false}` (without `notFound`)
when the final `fs.rm` fails. -/
def uninstallWebApp (appName browserId : String) (env : UninstEnv) :
    Except String UninstallResult :=
  let browserName := getBrowserName browserId
  let safeName := sanitizeAppName appName
  match getWebAppDirectoryById env.platform env.home env.appdata browserId with
  | none => .ok { success := false, error := "Unsupported platform: " ++ env.platform }
  | some appDir =>
    if !env.statDir then
      .ok { success := false, notFound := true,
            error := "No " ++ browserName ++ " apps directory found" }
    else
      let foundE : Except String (Option String) :=
        match env.platform with
        | "darwin" => findByExt env appDir safeName ".app"
        | "win32" => findByExt env appDir safeName ".lnk"
        | "linux" => findLinuxDesktop env appDir safeName
        | _ => .ok none
      match foundE with
      | .error e => .error e
      | .ok none =>
        .ok { success := false, notFound := true,
              error := "App \"" ++ appName ++ "\" not found in " ++ browserName ++ " apps" }
      | .ok (some appPath) =>
        if env.rmOk then
          .ok { success := true, appPath := appPath, browserName := browserName }
        else
          .ok { success := false, error := "Failed to remove app: rm failed" }

/-! ### Network fetcher (`fetchUrl`, icon module lines 16-70)

The promise recursion of `fetchUrl` (a redirect re-invokes `fetchUrl` on
the resolved target, with no hop counter anywhere) is modelled as a
big-step evaluation relation: one rule per branch of the response
handler.  `NetEnv.resp` gives the connection-level outcome of one GET per
URL (`.error` models a socket error or timeout). -/

structure HttpResp where
  status : Nat
  location : Option String := none
  data : String := ""
  contentType : String := ""
deriving Repr, DecidableEq

structure NetEnv where
  resp : String → Except String HttpResp
  resolveUrl : String → String → String := fun l _ => l

/-- Redirect test of the response handler:
`res.statusCode >= 300 && res.statusCode < 400 && res.headers.location`
(an absent or empty `location` header is falsy). -/
def isRedirectB (r : HttpResp) : Bool :=
  (300 ≤ r.status && r.status < 400) &&
    (match r.location with
     | some l => !(l == "")
     | none => false)

/-- Target of a redirect: an absolute `Location` is followed verbatim, a
relative one is resolved against the URL of the request that received the
response (`new URL(location, urlString).href`). -/
def redirectTarget (env : NetEnv) (r : HttpResp) (urlString : String) : String :=
  let l := r.location.getD ""
  if strStarts l "http" then l else env.resolveUrl l urlString

inductive FetchErr where
| conn (msg : String)
| httpStatus (status : Nat)
deriving Repr, DecidableEq

/-- Big-step semantics of `fetchUrl urlString` under `env`.  The redirect
rule is applicable at any depth — the source has no hop limit. -/
inductive Fetches (env : NetEnv) : String → Except FetchErr (String × String) → Prop
| redirect {url r resp} (hresp : env.resp url = .ok resp)
    (hred : isRedirectB resp = true)
    (hrec : Fetches env (redirectTarget env resp url) r) : Fetches env url r
| connError {url e} (hresp : env.resp url = .error e) :
    Fetches env url (.error (.conn e))
| badStatus {url resp} (hresp : env.resp url = .ok resp)
    (hred : isRedirectB resp = false) (hne : resp.status ≠ 200) :
    Fetches env url (.error (.httpStatus resp.status))
| success {url resp} (hresp : env.resp url = .ok resp)
    (hred : isRedirectB resp = false) (h200 : resp.status = 200) :
    Fetches env url (.ok (resp.data, resp.contentType))

/-- Concrete redirect chain used to exhibit unbounded hop-following: every
URL shorter than `4 + n` characters answers `301` with an absolute
`Location` one character longer, and longer URLs answer `200`. -/
def chainEnv (n : Nat) : NetEnv :=
  { resp := fun u =>
      if u.length < 4 + n then .ok { status := 301, location := some (u.push 'a') }
      else .ok { status := 200, data := "done", contentType := "text/html" },
    resolveUrl := fun l _ => l }

/-! ### CLI entry (`program.action`, index.js lines 20-32) -/

inductive CliOutcome where
| listedBrowsers
| invalidUrlExit
| proceed (url : String)
deriving Repr, DecidableEq

/-- Embeds the guard sequence at the top of the main CLI action: the
`--list-browsers` shortcut, then the URL validation, which exits with
code 1 before any browser detection or install work. -/
def cliValidateStep (url : String) (listBrowsers : Bool) : CliOutcome :=
  if listBrowsers then .listedBrowsers
  else if !(validateUrl url) then .invalidUrlExit
  else .proceed url

/-! ### Spec-side comparison definitions -/

/-- Failure of the icon pipeline as the emitters observe it: either the
`prepareIcon` promise rejected or it resolved with `success: false`. -/
def iconFailedB : Except String ConvResult → Bool
| .error _ => true
| .ok r => !r.success

/-- Spec-side description of the launcher-artifact path each platform is
expected to produce (`<dir>/<name>.app`, `<dir>/<name>.lnk`,
`<dir>/<appId>.desktop`), for comparison with the installer's output. -/
def expectedAppPath (env : InstallEnv) (url appName : String)
    (browser : BrowserInfo) : String :=
  let appDir := (getWebAppDirectory env.platform env.home env.appdata browser.id).toOption.getD ""
  match env.platform with
  | "darwin" => pathJoin appDir (sanitizeAppName appName ++ ".app")
  | "win32" => pathJoin appDir (sanitizeAppName appName ++ ".lnk")
  | _ => pathJoin appDir (generateAppId url env.now ++ ".desktop")

/-- Spec-side description of the concrete file whose write realises the
launcher artifact: the bundle's launcher script on macOS, the shortcut on
Windows, the desktop entry on Linux. -/
def expectedArtifactFile (env : InstallEnv) (url appName : String)
    (browser : BrowserInfo) : String :=
  match env.platform with
  | "darwin" =>
    pathJoin (pathJoin (pathJoin (expectedAppPath env url appName browser) "Contents") "MacOS")
      (sanitizeAppName appName)
  | _ => expectedAppPath env url appName browser

/-! ## Theorems -/

/-! ### C10 — `validateUrl` accepts exactly parseable http(s) URLs and the
CLI rejects everything else before any install work -/

/-- C10: `validateUrl s` is `true` exactly when `s` parses as a URL whose
protocol is `http:` or `https:`; on every other input it is `false` and
the CLI action exits before performing any install work. -/
theorem validateUrl_spec (s : String) :
    (validateUrl s = true ↔
      ∃ u, parseURL s = some u ∧ (u.protocol = "http:" ∨ u.protocol = "https:")) ∧
    (validateUrl s = false → cliValidateStep s false = CliOutcome.invalidUrlExit) := by
  refine ⟨?_, ?_⟩
  · cases h : parseURL s with
    | none => simp [validateUrl, h]
    | some u => simp [validateUrl, h]
  · intro hv
    simp [cliValidateStep, hv]

/-- Witness for C10: the non-http scheme `ftp://host/x` is rejected by the
CLI before any install work. -/
theorem validateUrl_spec_witness :
    cliValidateStep "ftp://host/x" false = CliOutcome.invalidUrlExit :=
  (validateUrl_spec "ftp://host/x").2 (by decide)

/-! ### C8 — determinism of `generateAppId` -/

/-- C8 counterexample: for a string `new URL` rejects, `generateAppId`
embeds `Date.now()`, so two separate calls (here at clock values 0 and 1)
return different identifiers — the claim's unrestricted determinism
fails. -/
theorem generateAppId_counterexample :
    generateAppId "notaurl" 0 ≠ generateAppId "notaurl" 1 := by decide

/-- C8 (amended): for every string that parses as a URL, `generateAppId`
is deterministic — repeated calls return the same identifier regardless of
the clock. -/
theorem generateAppId_deterministic (s : String) (u : UrlRec) (t₁ t₂ : Nat)
    (h : parseURL s = some u) : generateAppId s t₁ = generateAppId s t₂ := by
  unfold generateAppId
  rw [h]

/-- Witness for C8's amended theorem at a concrete parseable URL and two
distinct clock values. -/
theorem generateAppId_deterministic_witness :
    generateAppId "https://example.com/app" 0 = generateAppId "https://example.com/app" 99 :=
  generateAppId_deterministic "https://example.com/app"
    ⟨"https:", "example.com", "/app"⟩ 0 99 (by decide)

/-! ### C5 — icon file-extension inference -/

/-- C5 counterexample: a response whose content-type identifies jpeg but
whose URL ends in `.ico` is saved with extension `.ico`, not `.jpg` — the
URL suffix is consulted (and wins) even though the content-type decides. -/
theorem inferExtension_counterexample :
    inferExtension "image/jpeg" "https://example.com/favicon.ico" = ".ico" ∧
    (".ico" : String) ≠ ".jpg" := by decide

/-- C5 (amended): the inference chain is svg-by-content-type first, then
ico where the `.ico` URL suffix is tested alongside the ico content-type
(so it can override a jpeg content-type), then jpeg by content-type, then
the `.svg` URL suffix, defaulting to `.png`; `downloadIcon` saves the file
under exactly this extension. -/
theorem inferExtension_amended (ct url : String) :
    (strHas ct "svg" = true → inferExtension ct url = ".svg") ∧
    (strHas ct "svg" = false → strHas ct "ico" = true →
      inferExtension ct url = ".ico") ∧
    (strHas ct "svg" = false → strHas ct "ico" = false → strEnds url ".ico" = true →
      inferExtension ct url = ".ico") ∧
    (strHas ct "svg" = false → strHas ct "ico" = false → strEnds url ".ico" = false →
      (strHas ct "jpeg" || strHas ct "jpg") = true → inferExtension ct url = ".jpg") ∧
    (∀ (env : PrepEnv) (tempDir : String) (n : Nat), env.fetch = .ok (n, ct) →
      env.mkdirOk = true → env.writeOk = true →
      (downloadIcon url tempDir env).1.extension = inferExtension ct url) := by
  refine ⟨?_, ?_, ?_, ?_, ?_⟩
  · intro h1
    simp [inferExtension, h1]
  · intro h1 h2
    simp [inferExtension, h1, h2]
  · intro h1 h2 h3
    simp [inferExtension, h1, h2, h3]
  · intro h1 h2 h3 h4
    simp [inferExtension, h1, h2, h3, h4]
  · intro env tempDir n hf hm hw
    simp [downloadIcon, hf, hm, hw]

/-- Witness for C5's amended theorem: an svg content-type always yields
`.svg`. -/
theorem inferExtension_amended_witness :
    inferExtension "image/svg+xml" "https://example.com/a" = ".svg" :=
  (inferExtension_amended "image/svg+xml" "https://example.com/a").1 (by decide)

/-! ### Supporting lemmas about the stable descending sort -/

/-- Insertion never produces an empty list. -/
theorem insertIcon_ne_nil (a : Icon) : ∀ l : List Icon, insertIcon a l ≠ []
| [] => by simp [insertIcon]
| x :: xs => by
  unfold insertIcon
  split <;> simp

/-- Unfolding equation for `sortIcons` on a cons cell. -/
theorem sortIcons_cons (a : Icon) (l : List Icon) :
    sortIcons (a :: l) = insertIcon a (sortIcons l) := rfl

/-- Only the empty list sorts to the empty list. -/
theorem sortIcons_eq_nil {l : List Icon} (h : sortIcons l = []) : l = [] := by
  cases l with
  | nil => rfl
  | cons a l => exact absurd h (insertIcon_ne_nil a (sortIcons l))

/-- Characterisation of an empty `firstMaxIcon` result. -/
theorem firstMaxIcon_none {l : List Icon} (h : firstMaxIcon l = none) : l = [] := by
  cases l with
  | nil => rfl
  | cons a l =>
    unfold firstMaxIcon at h
    cases hl : firstMaxIcon l with
    | none => rw [hl] at h; simp at h
    | some b => rw [hl] at h; by_cases hc : b.priority > a.priority <;> simp [hc] at h

/-- Head of the stable descending sort is the first candidate of maximal
priority in encounter order. -/
theorem sortIcons_head (l : List Icon) : (sortIcons l).head? = firstMaxIcon l := by
  induction l with
  | nil => rfl
  | cons a l ih =>
    rw [sortIcons_cons]
    cases hs : sortIcons l with
    | nil =>
      have hl : l = [] := sortIcons_eq_nil hs
      subst hl
      rfl
    | cons x xs =>
      have hx : firstMaxIcon l = some x := by rw [← ih, hs]; rfl
      unfold insertIcon firstMaxIcon
      rw [hx]
      by_cases hc : a.priority < x.priority
      · simp [hc, gt_iff_lt]
      · simp [hc, gt_iff_lt]

/-- The first-maximum candidate dominates every candidate's priority. -/
theorem firstMaxIcon_le (l : List Icon) (b : Icon) (h : firstMaxIcon l = some b) :
    ∀ c ∈ l, c.priority ≤ b.priority := by
  induction l generalizing b with
  | nil => simp [firstMaxIcon] at h
  | cons a l ih =>
    intro c hc
    unfold firstMaxIcon at h
    cases hl : firstMaxIcon l with
    | none =>
      rw [hl] at h
      have h2 : some a = some b := h
      have hla : l = [] := firstMaxIcon_none hl
      subst hla
      have hba : b = a := by simpa using h2.symm
      subst hba
      rcases List.mem_singleton.mp hc with rfl
      exact le_refl _
    | some b' =>
      rw [hl] at h
      have h2 : (if b'.priority > a.priority then some b' else some a) = some b := h
      by_cases hgt : b'.priority > a.priority
      · rw [if_pos hgt] at h2
        have hbb : b = b' := by simpa using h2.symm
        subst hbb
        rcases List.mem_cons.mp hc with rfl | hcl
        · exact le_of_lt hgt
        · exact ih _ hl c hcl
      · rw [if_neg hgt] at h2
        have hba : b = a := by simpa using h2.symm
        subst hba
        rcases List.mem_cons.mp hc with rfl | hcl
        · exact le_refl _
        · exact le_trans (ih _ hl c hcl) (not_lt.mp hgt)

/-! ### C2 — discovery totality and the favicon fallback -/

/-- C2: for every page URL that parses, `getBestIconUrl` always resolves
(never rejects); a failed page fetch or an empty candidate pool yields
exactly `{protocol}//{hostname}/favicon.ico` derived from the page URL,
and a non-empty candidate pool yields the top-ranked candidate's href. -/
theorem getBestIconUrl_fallback_spec (env : DiscEnv) (s : String) (u : UrlRec)
    (hu : parseURL s = some u)
    (hp : u.protocol = "http:" ∨ u.protocol = "https:") :
    (∃ r, getBestIconUrl env s = .ok r) ∧
    (∀ e, env.pageFetch = .error e →
      getBestIconUrl env s = .ok (u.protocol ++ "//" ++ u.hostname ++ "/favicon.ico")) ∧
    (∀ links, env.pageFetch = .ok links → allIcons env links s = [] →
      getBestIconUrl env s = .ok (u.protocol ++ "//" ++ u.hostname ++ "/favicon.ico")) ∧
    (∀ links i rest, env.pageFetch = .ok links →
      sortIcons (allIcons env links s) = i :: rest →
      getBestIconUrl env s = .ok i.href) := by
  have hfb : faviconFallback s = .ok (u.protocol ++ "//" ++ u.hostname ++ "/favicon.ico") := by
    simp [faviconFallback, hu]
  refine ⟨?_, ?_, ?_, ?_⟩
  · cases hp2 : env.pageFetch with
    | error e =>
      refine ⟨u.protocol ++ "//" ++ u.hostname ++ "/favicon.ico", ?_⟩
      simp [getBestIconUrl, hp2, hfb]
    | ok links =>
      cases hh : (sortIcons (allIcons env links s)).head? with
      | none =>
        refine ⟨u.protocol ++ "//" ++ u.hostname ++ "/favicon.ico", ?_⟩
        simp [getBestIconUrl, hp2, hh, hfb]
      | some i =>
        refine ⟨i.href, ?_⟩
        simp [getBestIconUrl, hp2, hh]
  · intro e he
    simp [getBestIconUrl, he, hfb]
  · intro links hl hall
    simp [getBestIconUrl, hl, hall, sortIcons, hfb]
  · intro links i rest hl hs
    simp [getBestIconUrl, hl, hs]

/-- Witness for C2: with the network unreachable, discovering an icon for
`https://example.com` returns the favicon fallback. -/
theorem getBestIconUrl_fallback_spec_witness :
    getBestIconUrl ⟨.error "network down", .error "no manifest", fun l _ => l⟩
      "https://example.com" = .ok "https://example.com/favicon.ico" :=
  (getBestIconUrl_fallback_spec _ "https://example.com"
      ⟨"https:", "example.com", "/"⟩ (by decide) (Or.inr rfl)).2.1 "network down" rfl

/-! ### C3 — candidate ranking: priority = size (+1000 for
apple-touch-icon), descending stable sort -/

/-- C3: whenever discovery has collected candidates (HTML-derived before
manifest-derived, priority = parsed size plus 1000 exactly for
apple-touch-icon relations), the selected icon is the first candidate of
maximal priority in encounter order, and its priority dominates every
candidate. -/
theorem iconRanking_spec (env : DiscEnv) (links : List LinkTag) (s : String) (b : Icon)
    (hpage : env.pageFetch = .ok links)
    (hmax : firstMaxIcon (allIcons env links s) = some b) :
    getBestIconUrl env s = .ok b.href ∧
    ∀ c ∈ allIcons env links s, c.priority ≤ b.priority := by
  have hh : (sortIcons (allIcons env links s)).head? = some b := by
    rw [sortIcons_head, hmax]
  refine ⟨?_, firstMaxIcon_le _ b hmax⟩
  cases hs : sortIcons (allIcons env links s) with
  | nil => rw [hs] at hh; simp at hh
  | cons i rest =>
    rw [hs] at hh
    simp only [List.head?_cons, Option.some.injEq] at hh
    simp [getBestIconUrl, hpage, hs, hh]

/-- Witness for C3: the spec's own example — an apple-touch-icon with size
32 (priority 1032) outranks a plain icon with size 180, even though the
plain icon comes first in the HTML. -/
theorem iconRanking_spec_witness :
    getBestIconUrl ⟨.ok [
      { rel := some "icon", href := some "https://example.com/plain.png",
        sizes := some "180x180" },
      { rel := some "apple-touch-icon", href := some "https://example.com/apple.png",
        sizes := some "32x32" }],
      .error "no manifest", fun l _ => l⟩ "https://example.com"
      = .ok "https://example.com/apple.png" :=
  (iconRanking_spec _ _ "https://example.com"
    { href := "https://example.com/apple.png", size := 32, isAppleIcon := true,
      priority := 1032 } rfl (by decide)).1

/-! ### C7 — redirect following in `fetchUrl` -/

/-- Every URL fetched under `chainEnv n` reaches the final 200 response;
the induction is on the slack `m` between the URL length and the chain
threshold, so the statement covers redirect chains of every length. -/
theorem chainEnv_fetches (n : Nat) :
    ∀ (m : Nat) (u : String), 4 + n ≤ u.length + m →
      Fetches (chainEnv n) u (.ok ("done", "text/html")) := by
  intro m
  induction m with
  | zero =>
    intro u hu
    have hnlt : ¬(u.length < 4 + n) := by omega
    refine @Fetches.success (chainEnv n) u ⟨200, none, "done", "text/html"⟩ ?_ rfl rfl
    simp [chainEnv, hnlt]
  | succ m ih =>
    intro u hu
    by_cases hlt : u.length < 4 + n
    · have hresp : (chainEnv n).resp u = .ok ⟨301, some (u.push 'a'), "", ""⟩ := by
        simp [chainEnv, hlt]
      have hne : (u.push 'a') ≠ "" := by
        intro h
        have h2 := congrArg String.length h
        simp at h2
      have hred : isRedirectB ⟨301, some (u.push 'a'), "", ""⟩ = true := by
        simp [isRedirectB, hne]
      refine Fetches.redirect hresp hred ?_
      have htgt : redirectTarget (chainEnv n) ⟨301, some (u.push 'a'), "", ""⟩ u
          = u.push 'a' := by
        simp [redirectTarget, chainEnv]
      rw [htgt]
      refine ih (u.push 'a') ?_
      simp only [String.length_push]
      omega
    · refine @Fetches.success (chainEnv n) u ⟨200, none, "done", "text/html"⟩ ?_ rfl rfl
      simp [chainEnv, hlt]

/-- C7: `fetchUrl` follows every 3xx response carrying a non-empty
`Location` header by re-issuing the request against the resolved target —
the redirect rule applies at every depth and the concrete chain
environment exhibits successful fetches across `n` hops for every `n`, so
no hop limit exists — and it rejects with the `HTTP <status>` error
exactly when the final non-redirect response status is not 200. -/
theorem fetchUrl_redirect_spec :
    (∀ (env : NetEnv) (url : String) (resp : HttpResp)
        (r : Except FetchErr (String × String)),
      env.resp url = .ok resp → isRedirectB resp = true →
      (Fetches env url r ↔ Fetches env (redirectTarget env resp url) r)) ∧
    (∀ (env : NetEnv) (url : String) (resp : HttpResp) (s : Nat),
      env.resp url = .ok resp → isRedirectB resp = false →
      (Fetches env url (.error (.httpStatus s)) ↔ resp.status = s ∧ s ≠ 200)) ∧
    (∀ n : Nat, Fetches (chainEnv n) "http" (.ok ("done", "text/html"))) := by
  refine ⟨?_, ?_, ?_⟩
  · intro env url resp r hresp hred
    constructor
    · intro h
      cases h with
      | redirect hresp2 hred2 hrec =>
        rw [hresp] at hresp2
        injection hresp2 with he
        subst he
        exact hrec
      | connError hresp2 =>
        rw [hresp] at hresp2
        exact absurd hresp2 (by simp)
      | badStatus hresp2 hred2 hne =>
        rw [hresp] at hresp2
        injection hresp2 with he
        subst he
        rw [hred] at hred2
        exact absurd hred2 (by simp)
      | success hresp2 hred2 h200 =>
        rw [hresp] at hresp2
        injection hresp2 with he
        subst he
        rw [hred] at hred2
        exact absurd hred2 (by simp)
    · intro h
      exact Fetches.redirect hresp hred h
  · intro env url resp s hresp hred
    constructor
    · intro h
      cases h with
      | redirect hresp2 hred2 hrec =>
        rw [hresp] at hresp2
        injection hresp2 with he
        subst he
        rw [hred] at hred2
        exact absurd hred2 (by simp)
      | badStatus hresp2 hred2 hne =>
        rw [hresp] at hresp2
        injection hresp2 with he
        subst he
        exact ⟨rfl, hne⟩
    · rintro ⟨hs, hne⟩
      subst hs
      exact Fetches.badStatus hresp hred hne
  · intro n
    refine chainEnv_fetches n n "http" ?_
    have h4 : ("http" : String).length = 4 := rfl
    omega

/-- Witness for C7: a five-hop redirect chain is followed to the final 200
response, and a direct 404 rejects with the HTTP status error. -/
theorem fetchUrl_redirect_spec_witness :
    Fetches (chainEnv 5) "http" (.ok ("done", "text/html")) ∧
    Fetches ⟨fun _ => .ok ⟨404, none, "", ""⟩, fun l _ => l⟩ "https://example.com"
      (.error (.httpStatus 404)) :=
  ⟨fetchUrl_redirect_spec.2.2 5,
   (fetchUrl_redirect_spec.2.1 ⟨fun _ => .ok ⟨404, none, "", ""⟩, fun l _ => l⟩
      "https://example.com" ⟨404, none, "", ""⟩ 404 rfl (by decide)).mpr
     ⟨rfl, by decide⟩⟩

/-! ### C4 — temp-directory cleanup in `prepareIcon` -/

/-- C4 counterexample: when the asset fetch succeeds and the temp
directory is created but the subsequent file write fails, `prepareIcon`
takes the early download-failure return, which precedes the `rm -rf`
cleanup — it returns with the `.icon-temp` directory still in
existence. -/
theorem prepareIcon_leak_counterexample :
    (prepareIcon
      { disc := ⟨.error "network down", .error "no manifest", fun l _ => l⟩,
        fetch := .ok (100, "image/png"), writeOk := false }
      "https://example.com" "/out" "linux").2 = true := rfl

/-- C4 (amended): the `rm -rf` cleanup is reached on every path on which
the download succeeded and no exception escaped the conversion switch, so
whenever `prepareIcon` resolves after a successful download (and `rm`
itself succeeds) the temp directory is gone; the uncleaned exits are
exactly the early download-failure return and an escaping exception. -/
theorem prepareIcon_cleanup_amended (env : PrepEnv)
    (websiteUrl outputDir platform : String)
    (hf : ∃ p, env.fetch = .ok p) (hm : env.mkdirOk = true) (hw : env.writeOk = true)
    (hrm : env.rmOk = true) (r : ConvResult)
    (hok : (prepareIcon env websiteUrl outputDir platform).1 = .ok r) :
    (prepareIcon env websiteUrl outputDir platform).2 = false := by
  obtain ⟨⟨len, ct⟩, hfe⟩ := hf
  revert hok
  unfold prepareIcon
  cases hg : getBestIconUrl env.disc websiteUrl with
  | error e =>
    intro hok
    simp at hok
  | ok iconUrl =>
    have hdl : downloadIcon iconUrl (pathJoin outputDir ".icon-temp") env
        = ({ success := true,
             path := pathJoin (pathJoin outputDir ".icon-temp")
               ("icon" ++ inferExtension ct iconUrl),
             extension := inferExtension ct iconUrl, size := len }, true) := by
      simp [downloadIcon, hfe, hm, hw]
    dsimp only
    rw [hdl]
    dsimp only
    rw [if_neg (by decide)]
    cases hstep : prepareIconStep env
        { success := true,
          path := pathJoin (pathJoin outputDir ".icon-temp")
            ("icon" ++ inferExtension ct iconUrl),
          extension := inferExtension ct iconUrl, size := len }
        (pathJoin outputDir ".icon-temp") outputDir platform with
    | error e =>
      intro hok
      simp at hok
    | ok result =>
      intro hok
      simp [hrm]

/-- Witness for C4's amended theorem: a successful download with working
primitives leaves no `.icon-temp` directory behind. -/
theorem prepareIcon_cleanup_amended_witness :
    (prepareIcon
      { disc := ⟨.error "network down", .error "no manifest", fun l _ => l⟩,
        fetch := .ok (100, "image/png") }
      "https://example.com" "/out" "linux").2 = false :=
  prepareIcon_cleanup_amended _ "https://example.com" "/out" "linux"
    ⟨(100, "image/png"), rfl⟩ rfl rfl rfl
    { success := true, path := "/out/icon.png" } rfl

/-! ### C6 — transcoding succeeds with zero external tools -/

/-- C6: with no external conversion tool available but a working file
copy, transcoding a successfully downloaded icon reports success on both
Windows (kept as a plain PNG, with a note) and Linux (copy fallback) —
neither platform path is a hard failure. -/
theorem transcode_noTools_spec (env : PrepEnv) (url outDir : String)
    (htool : env.toolOk = false) (hcopy : env.copyOk = true)
    (hf : ∃ p, env.fetch = .ok p) (hm : env.mkdirOk = true) (hw : env.writeOk = true)
    (hd : ∃ iu, getBestIconUrl env.disc url = .ok iu) :
    (∃ r, (prepareIcon env url outDir "win32").1 = .ok r ∧ r.success = true ∧
      r.note.isSome = true) ∧
    (∃ r, (prepareIcon env url outDir "linux").1 = .ok r ∧ r.success = true) := by
  obtain ⟨⟨len, ct⟩, hfe⟩ := hf
  obtain ⟨iu, hiu⟩ := hd
  have hdl : downloadIcon iu (pathJoin outDir ".icon-temp") env
      = ({ success := true,
           path := pathJoin (pathJoin outDir ".icon-temp")
             ("icon" ++ inferExtension ct iu),
           extension := inferExtension ct iu, size := len }, true) := by
    simp [downloadIcon, hfe, hm, hw]
  constructor
  · refine ⟨{ success := true,
              path := jsReplaceFirst (pathJoin outDir "app.ico") ".ico" ".png",
              note := some "Saved as PNG (ImageMagick not available for ICO conversion)" },
            ?_, rfl, rfl⟩
    unfold prepareIcon
    rw [hiu]
    dsimp only
    rw [hdl]
    dsimp only
    rw [if_neg (by decide)]
    simp [prepareIconStep, convertToIco, htool, hcopy]
  · refine ⟨{ success := true, path := pathJoin outDir "icon.png" }, ?_, rfl⟩
    unfold prepareIcon
    rw [hiu]
    dsimp only
    rw [hdl]
    dsimp only
    rw [if_neg (by decide)]
    by_cases hext : inferExtension ct iu == ".png"
    · simp [prepareIconStep, hext, hcopy]
    · simp [prepareIconStep, hext, htool, hcopy]

/-- Witness for C6 at a concrete environment with no tools and an
unreachable page (favicon fallback), discharging every hypothesis. -/
theorem transcode_noTools_spec_witness :
    ∃ r, (prepareIcon
      { disc := ⟨.error "network down", .error "no manifest", fun l _ => l⟩,
        fetch := .ok (64, "image/png"), toolOk := false }
      "https://example.com" "/out" "linux").1 = .ok r ∧ r.success = true :=
  (transcode_noTools_spec
    { disc := ⟨.error "network down", .error "no manifest", fun l _ => l⟩,
      fetch := .ok (64, "image/png"), toolOk := false }
    "https://example.com" "/out" rfl rfl ⟨(64, "image/png"), rfl⟩ rfl rfl
    ⟨"https://example.com/favicon.ico", rfl⟩).2

/-! ### C1 — icon-pipeline failure is never fatal to an install -/

/-- C1: whenever the icon pipeline fails (a rejected `prepareIcon` promise
or a `{success:false}` result), `installWebApp` on every supported
platform still returns `{success:true}`, writes the launcher artifact at
its expected path, and attaches the user-visible "Could not fetch icon
from website." note — the icon failure is never fatal to the install. -/
theorem installWebApp_iconFailure_spec (env : InstallEnv) (url appName : String)
    (browser : BrowserInfo)
    (hplat : env.platform = "darwin" ∨ env.platform = "win32" ∨ env.platform = "linux")
    (hicon : iconFailedB env.iconResult = true) (hps : env.psOk = true) :
    ∃ res written, installWebApp env url appName browser = .ok (res, written) ∧
      res.success = true ∧
      (∃ t, res.note = "Could not fetch icon from website. " ++ t) ∧
      res.appPath = expectedAppPath env url appName browser ∧
      expectedArtifactFile env url appName browser ∈ written := by
  have hnote : iconNoteOf env.iconResult = "Could not fetch icon from website. " := by
    unfold iconFailedB at hicon
    unfold iconNoteOf
    cases hic : env.iconResult with
    | error e => rfl
    | ok r =>
      rw [hic] at hicon
      simp only [Bool.not_eq_true'] at hicon
      simp [hicon]
  rcases hplat with hp | hp | hp
  · have heq : installWebApp env url appName browser =
        .ok ({ success := true,
               appPath := pathJoin (expandHomePath env.home (darwinAppsDir browser.id))
                 (sanitizeAppName appName ++ ".app"),
               note := iconNoteOf env.iconResult ++
                 "The app should appear in Spotlight search. If not, try restarting Spotlight (killall mds)." },
             [pathJoin (pathJoin (pathJoin (expandHomePath env.home (darwinAppsDir browser.id))
                 (sanitizeAppName appName ++ ".app")) "Contents") "Info.plist",
              pathJoin (pathJoin (pathJoin (pathJoin (expandHomePath env.home (darwinAppsDir browser.id))
                 (sanitizeAppName appName ++ ".app")) "Contents") "MacOS") (sanitizeAppName appName)]) := by
      simp [installWebApp, getWebAppDirectory, createMacOSApp, hp]
    refine ⟨_, _, heq, rfl, ⟨_, by rw [hnote]⟩, ?_, ?_⟩
    · simp [expectedAppPath, getWebAppDirectory, hp, Except.toOption]
    · simp [expectedArtifactFile, expectedAppPath, getWebAppDirectory, hp, Except.toOption]
  · have heq : installWebApp env url appName browser =
        .ok ({ success := true,
               appPath := pathJoin (win32AppsDir env.appdata browser.id)
                 (sanitizeAppName appName ++ ".lnk"),
               note := iconNoteOf env.iconResult ++
                 "The app should appear in the Start Menu search." },
             [pathJoin env.temp ("webnest_" ++ toString env.now ++ ".ps1"),
              pathJoin (win32AppsDir env.appdata browser.id)
                (sanitizeAppName appName ++ ".lnk")]) := by
      simp [installWebApp, getWebAppDirectory, createWindowsApp, hp, hps]
    refine ⟨_, _, heq, rfl, ⟨_, by rw [hnote]⟩, ?_, ?_⟩
    · simp [expectedAppPath, getWebAppDirectory, hp, Except.toOption]
    · simp [expectedArtifactFile, expectedAppPath, getWebAppDirectory, hp, Except.toOption]
  · have heq : installWebApp env url appName browser =
        .ok ({ success := true,
               appPath := pathJoin (expandHomePath env.home "~/.local/share/applications")
                 (generateAppId url env.now ++ ".desktop"),
               note := iconNoteOf env.iconResult ++
                 "The app should appear in your application menu. You may need to log out and log back in for it to appear." },
             [pathJoin (expandHomePath env.home "~/.local/share/applications")
                (generateAppId url env.now ++ ".desktop")]) := by
      simp [installWebApp, getWebAppDirectory, createLinuxApp, hp]
    refine ⟨_, _, heq, rfl, ⟨_, by rw [hnote]⟩, ?_, ?_⟩
    · simp [expectedAppPath, getWebAppDirectory, hp, Except.toOption]
    · simp [expectedArtifactFile, expectedAppPath, getWebAppDirectory, hp, Except.toOption]

/-- Witness for C1: a Linux install of `https://example.com` whose
`prepareIcon` promise rejected (no reachable network) still succeeds with
the icon-unavailable note. -/
theorem installWebApp_iconFailure_spec_witness :
    ∃ res written, installWebApp
      { platform := "linux", iconResult := .error "network down" }
      "https://example.com" "Example" ⟨"chrome", "Google Chrome", "/usr/bin/google-chrome"⟩
      = .ok (res, written) ∧ res.success = true ∧
      (∃ t, res.note = "Could not fetch icon from website. " ++ t) ∧
      res.appPath = expectedAppPath { platform := "linux", iconResult := .error "network down" }
        "https://example.com" "Example" ⟨"chrome", "Google Chrome", "/usr/bin/google-chrome"⟩ ∧
      expectedArtifactFile { platform := "linux", iconResult := .error "network down" }
        "https://example.com" "Example" ⟨"chrome", "Google Chrome", "/usr/bin/google-chrome"⟩
        ∈ written :=
  installWebApp_iconFailure_spec _ _ _ _ (Or.inr (Or.inr rfl)) rfl rfl

/-! ### C9 — uninstall reporting for never-installed names -/

/-- C9 counterexample: removing the never-installed name "Ghost" on Linux
while a different WebNest-created app is present does not return the soft
not-found outcome — the deliberately loose search matches the other app
through the "webnest" filename test and the "WebNest" content test, and
the unrelated app is removed with `{success:true}`. -/
theorem uninstall_notFound_counterexample :
    ∃ r, uninstallWebApp "Ghost" "chrome"
        { platform := "linux",
          listing := .ok ["com.webnest.other-site.desktop"],
          readFile := fun _ => .ok "Comment=Other - Web App created by WebNest" }
      = .ok r ∧ r.success = true ∧ r.notFound = false ∧
      r.appPath = "/home/user/.local/share/applications/com.webnest.other-site.desktop" :=
  ⟨_, rfl, rfl, rfl, rfl⟩

/-- C9 (amended): a never-installed name yields the soft
`{success:false, notFound:true}` outcome rather than a thrown error when
the per-browser apps directory is missing, when no artifact matches the
platform's search — the exact case-insensitive `<name>.app`/`<name>.lnk`
comparison on macOS/Windows, the loose filename test on Linux (so on
Linux only when no other WebNest-created entry is present to be matched
instead) — and a hard I/O failure (`fs.rm` failing on a found app) yields
`{success:false}` without the `notFound` flag, so the two outcomes stay
distinguishable. -/
theorem uninstall_notFound_amended :
    (∀ (appName browserId : String) (env : UninstEnv),
      (env.platform = "darwin" ∨ env.platform = "win32" ∨ env.platform = "linux") →
      env.statDir = false →
      ∃ r, uninstallWebApp appName browserId env = .ok r ∧
        r.success = false ∧ r.notFound = true) ∧
    (∀ (appName browserId ext : String) (env : UninstEnv) (files : List String),
      ((env.platform = "darwin" ∧ ext = ".app") ∨
       (env.platform = "win32" ∧ ext = ".lnk")) →
      env.statDir = true → env.listing = .ok files → (∀ p, env.statFile p = false) →
      (∀ f ∈ files, ¬(strLower f = strLower (sanitizeAppName appName) ++ ext)) →
      ∃ r, uninstallWebApp appName browserId env = .ok r ∧
        r.success = false ∧ r.notFound = true) ∧
    (∀ (appName browserId : String) (env : UninstEnv) (files : List String),
      env.platform = "linux" → env.statDir = true → env.listing = .ok files →
      (∀ f ∈ files, (strEnds f ".desktop" &&
        (strHas (strLower (jsReplaceFirst f ".desktop" ""))
          (strLower (sanitizeAppName appName)) ||
         strHas (strLower f) "webnest")) = false) →
      ∃ r, uninstallWebApp appName browserId env = .ok r ∧
        r.success = false ∧ r.notFound = true) ∧
    (∃ r, uninstallWebApp "Example" "chrome"
        { platform := "linux",
          listing := .ok ["com.webnest.example-com.desktop"],
          readFile := fun _ => .ok "Comment=Example - Web App created by WebNest",
          rmOk := false } = .ok r ∧ r.success = false ∧ r.notFound = false) := by
  refine ⟨?_, ?_, ?_, ?_⟩
  · intro appName browserId env hplat hsd
    rcases hplat with hp | hp | hp <;>
      exact ⟨{ success := false, notFound := true,
               error := "No " ++ getBrowserName browserId ++ " apps directory found" },
             by simp [uninstallWebApp, getWebAppDirectoryById, hp, hsd], rfl, rfl⟩
  · intro appName browserId ext env files hplat hsd hlist hstat hnomatch
    rcases hplat with ⟨hp, hext⟩ | ⟨hp, hext⟩ <;> subst hext
    · have hfind : files.find? (fun f =>
          strLower f == strLower (sanitizeAppName appName) ++ ".app") = none := by
        rw [List.find?_eq_none]
        intro f hf
        simp only [beq_iff_eq]
        exact hnomatch f hf
      exact ⟨{ success := false, notFound := true,
               error := "App \"" ++ appName ++ "\" not found in "
                 ++ getBrowserName browserId ++ " apps" },
             by simp [uninstallWebApp, getWebAppDirectoryById, hp, hsd, findByExt,
                      hlist, hstat, hfind], rfl, rfl⟩
    · have hfind : files.find? (fun f =>
          strLower f == strLower (sanitizeAppName appName) ++ ".lnk") = none := by
        rw [List.find?_eq_none]
        intro f hf
        simp only [beq_iff_eq]
        exact hnomatch f hf
      exact ⟨{ success := false, notFound := true,
               error := "App \"" ++ appName ++ "\" not found in "
                 ++ getBrowserName browserId ++ " apps" },
             by simp [uninstallWebApp, getWebAppDirectoryById, hp, hsd, findByExt,
                      hlist, hstat, hfind], rfl, rfl⟩
  · intro appName browserId env files hp hsd hlist hnomatch
    have hfind : files.find? (fun f => strEnds f ".desktop" &&
        (strHas (strLower (jsReplaceFirst f ".desktop" ""))
          (strLower (sanitizeAppName appName)) ||
         strHas (strLower f) "webnest")) = none := by
      rw [List.find?_eq_none]
      intro f hf
      simp [hnomatch f hf]
    exact ⟨{ success := false, notFound := true,
             error := "App \"" ++ appName ++ "\" not found in "
               ++ getBrowserName browserId ++ " apps" },
           by simp [uninstallWebApp, getWebAppDirectoryById, hp, hsd, findLinuxDesktop,
                    hlist, hfind], rfl, rfl⟩
  · exact ⟨_, rfl, rfl, rfl⟩

/-- Witness for C9's amended theorem: removing the never-installed name
"Ghost" from a Linux apps directory holding only a non-desktop file
returns the soft not-found outcome. -/
theorem uninstall_notFound_amended_witness :
    ∃ r, uninstallWebApp "Ghost" "chrome"
        { platform := "linux", listing := .ok ["readme.txt"] } = .ok r ∧
      r.success = false ∧ r.notFound = true :=
  uninstall_notFound_amended.2.2.1 "Ghost" "chrome"
    { platform := "linux", listing := .ok ["readme.txt"] } ["readme.txt"]
    rfl rfl rfl (by decide)

end WebNest
